import Mathlib

/-!
Verification of the lexer + recursive-descent parser + command IR pipeline of
`src/ci/parser.c`.

The parser source (`parser.c`) is embedded function by function below.  The
headers it includes (`token_type.h`, `command_type.h`, `command.h`) and the
lexer (`lexer_next_token`) are not part of the given sources; those data
types and the tokenizer are modelled from the specification (sections 2-4 of
the design document) and are marked `Modelled from the spec:` in their doc
comments.

Machine-level conventions of the C source that the model keeps:
* a token's `lexeme` is a borrowed slice of the NUL-terminated source buffer,
  so a token carries both its own text (`text`, the first `length`
  characters) and the remaining characters of the buffer after it (`after`);
  C functions that run off the end of the token (`strtol`, `strdup`) read
  `text ++ after`;
* the `uint64_t` accumulator of `parse_imm` is a `Nat` reduced `% 2 ^ 64` at
  every step;
* diagnostics (`print_error` writes to stdout) are modelled as the list of
  tokens the reports referenced, in emission order, carried in the parser
  state; the sticky `had_error` flag is modelled as in the source.
-/

namespace Ci

/-- Modelled from the spec: the closed set of token kinds produced by the
lexer (`token_type.h` is not among the given sources).  The six instruction
keywords, identifiers, numeric literals, newline and the end-of-input
sentinel are the kinds the parser distinguishes. -/
inductive TokType where
  | TOK_ADD
  | TOK_SUB
  | TOK_MOV
  | TOK_CMP
  | TOK_CMP_U
  | TOK_PRINT
  | TOK_IDENT
  | TOK_NUM
  | TOK_NL
  | TOK_EOF
deriving DecidableEq, Repr

/-- Modelled from the spec: a token is a borrowed slice of the source text
with kind, length and 1-based line/column.  `text` holds the `length`
characters of the lexeme; `after` holds the characters of the source buffer
following the token, because the C code (`strtol` in `parse_variable`,
`strdup` in the PRINT production) reads the buffer past `text` up to the
buffer's terminating NUL. -/
structure Token where
  type : TokType
  text : List Char
  after : List Char
  line : Nat
  col : Nat
deriving DecidableEq, Repr

/-- The end-of-input sentinel token used as the default when reading past the
buffered token list. -/
def eofTok : Token := ⟨.TOK_EOF, [], [], 0, 0⟩

/-- Modelled from the spec: the operand slot of a command (`command.h` is not
among the given sources).  A slot holds a 64-bit numeric value (`num_val`),
a register index (`base`, written by `parse_variable_operand`), or an owned
string (`str_val`, written by the PRINT production). -/
inductive Operand where
  | num (v : Nat)
  | reg (v : Int)
  | str (s : List Char)
deriving DecidableEq, Repr

/-- Modelled from the spec: the command kinds of this core
(`command_type.h` is not among the given sources; the surrounding system's
branch kinds are out of scope). -/
inductive CommandType where
  | CMD_ADD
  | CMD_SUB
  | CMD_MOV
  | CMD_CMP
  | CMD_CMP_U
  | CMD_PRINT
deriving DecidableEq, Repr

/-- Modelled from the spec: the branch-condition tag; the only value this
core ever stores is `BRANCH_NONE`. -/
inductive BranchCondition where
  | BRANCH_NONE
deriving DecidableEq, Repr

/-- Modelled from the spec: the command IR node of `command.h`.  The `next`
pointer of the C struct is modelled by returning commands in a `List`. -/
structure Command where
  type : CommandType
  destination : Operand
  val_a : Operand
  val_b : Operand
  is_a_immediate : Bool
  is_a_string : Bool
  is_b_immediate : Bool
  is_b_string : Bool
  branch_condition : BranchCondition
deriving DecidableEq, Repr

/-- `create_command` (parser.c:89-108): allocate a command of the given type
with zeroed operand slots and cleared flags.  Allocation is assumed to
succeed in the model (the `!cmd` failure path is not representable). -/
def create_command (ty : CommandType) : Command :=
  ⟨ty, .num 0, .num 0, .num 0, false, false, false, false, .BRANCH_NONE⟩

/-- The parser state: the buffered token stream (`current` is the head;
the C struct holds `current`/`next` and pulls lazily from the lexer, which
is equivalent to holding the whole finite stream), the sticky error flag,
and the tokens referenced by the diagnostics emitted so far (modelling the
stdout reports of `print_error`). -/
structure Parser where
  toks : List Token
  had_error : Bool
  diags : List Token
deriving DecidableEq, Repr

/-- The parser's `current` token (head of the buffered stream). -/
def cur (p : Parser) : Token := p.toks.headD eofTok

/-- `is_at_end` (parser.c:60-62): the current token is the sentinel. -/
def is_at_end (p : Parser) : Prop := (cur p).type = TokType.TOK_EOF

instance (p : Parser) : Decidable (is_at_end p) :=
  inferInstanceAs (Decidable ((cur p).type = TokType.TOK_EOF))

/-- `advance` (parser.c:44-51): return the current token; shift the buffer
unless already at the end-of-input sentinel. -/
def advance (p : Parser) : Token × Parser :=
  (cur p, if is_at_end p then p else ⟨p.toks.tail, p.had_error, p.diags⟩)

/-- `consume` (parser.c:71-78): advance only when the current token has the
requested kind. -/
def consume (p : Parser) (ty : TokType) : Bool × Parser :=
  if (cur p).type = ty then (true, (advance p).2) else (false, p)

/-- The loop of `skip_nls` (parser.c:336-339) acting on the token list:
drop leading newline tokens. -/
def skip_nls_toks : List Token → List Token
  | [] => []
  | t :: l => if t.type = .TOK_NL then skip_nls_toks l else t :: l

/-- `skip_nls` (parser.c:336-339): `while (consume(parser, TOK_NL));`. -/
def skip_nls (p : Parser) : Parser :=
  ⟨skip_nls_toks p.toks, p.had_error, p.diags⟩

/-- `consume_newline` (parser.c:354-356): consume one newline, or accept the
end-of-input sentinel as an implicit terminator. -/
def consume_newline (p : Parser) : Bool × Parser :=
  let r := consume p .TOK_NL
  if r.1 then r else consume p .TOK_EOF

/-- The recovery loop `while (current != TOK_NL && current != TOK_EOF)
advance;` of parse_commands (parser.c:667-669) and of the default case of
`parse_cmd` (parser.c:636-638), acting on the token list. -/
def skip_to_nl_toks : List Token → List Token
  | [] => []
  | t :: l =>
    if t.type = .TOK_NL ∨ t.type = .TOK_EOF then t :: l else skip_to_nl_toks l

/-- `print_error` (parser.c:365-381): report the current token (its text,
kind, length, line and column go to stdout — modelled by recording the
token) and set the sticky error flag. -/
def print_error (p : Parser) : Parser :=
  ⟨p.toks, true, p.diags ++ [cur p]⟩

/-- `is_variable` (parser.c:120-122): the token has length at least 2 and
begins with `x`. -/
def is_variable (t : Token) : Bool :=
  match t.text with
  | c :: _ :: _ => c = 'x'
  | _ => false

/-- `is_base` (parser.c:132-135): a single-character token that is one of
`d`, `x`, `s`, `b`. -/
def is_base (t : Token) : Bool :=
  match t.text with
  | [c] => c = 'd' ∨ c = 'x' ∨ c = 's' ∨ c = 'b'
  | _ => false

/-- Whitespace in the C locale, as skipped by `strtol`. -/
def isSpaceByte (c : Char) : Bool :=
  c = ' ' ∨ c = '\t' ∨ c = '\n' ∨ c = '\x0b' ∨ c = '\x0c' ∨ c = '\r'

/-- Value of a string of decimal digits. -/
def decDigitsVal (ds : List Char) : Nat :=
  ds.foldl (fun a c => a * 10 + (c.toNat - 48)) 0

/-- Modelled from the spec: C `strtol(s, &endptr, 10)` on the character
sequence `cs` — skip C whitespace, accept an optional sign, then a maximal
run of decimal digits.  Returns the value and the number of characters
consumed (`endptr - s`); when no digits follow, the value is 0 and nothing
is consumed.  Overflow clamping to `LONG_MIN`/`LONG_MAX` is not modelled
(every value this parser keeps is in [0, 31], far from the clamp range). -/
def strtol10 (cs : List Char) : Int × Nat :=
  let ws := cs.takeWhile isSpaceByte
  match cs.dropWhile isSpaceByte with
  | '-' :: cs2 =>
    let ds := cs2.takeWhile Char.isDigit
    if ds = [] then (0, 0) else (-(decDigitsVal ds : Int), ws.length + 1 + ds.length)
  | '+' :: cs2 =>
    let ds := cs2.takeWhile Char.isDigit
    if ds = [] then (0, 0) else ((decDigitsVal ds : Int), ws.length + 1 + ds.length)
  | cs2 =>
    let ds := cs2.takeWhile Char.isDigit
    if ds = [] then (0, 0) else ((decDigitsVal ds : Int), ws.length + ds.length)

/-- `parse_variable` (parser.c:161-171): run `strtol` base 10 from the
character after the leading `x` (the C call reads the source buffer, i.e.
`text.drop 1 ++ after`); succeed when `endptr` lands exactly on the end of
the token and the value is in [0, 31]. -/
def parse_variable (t : Token) : Option Int :=
  let r := strtol10 (t.text.drop 1 ++ t.after)
  if 1 + r.2 = t.text.length ∧ 0 ≤ r.1 ∧ r.1 ≤ 31 then some r.1 else none

/-- Hex digit test/value of `parse_imm` (parser.c:222-228). -/
def hexDigit? (c : Char) : Option Nat :=
  if '0' ≤ c ∧ c ≤ '9' then some (c.toNat - 48)
  else if 'a' ≤ c ∧ c ≤ 'f' then some (c.toNat - 97 + 10)
  else if 'A' ≤ c ∧ c ≤ 'F' then some (c.toNat - 65 + 10)
  else none

/-- Binary digit test/value of `parse_imm` (parser.c:235). -/
def binDigit? (c : Char) : Option Nat :=
  if c = '0' ∨ c = '1' then some (c.toNat - 48) else none

/-- Decimal digit test/value of `parse_imm` (parser.c:247). -/
def decDigit? (c : Char) : Option Nat :=
  if '0' ≤ c ∧ c ≤ '9' then some (c.toNat - 48) else none

/-- The digit-accumulation loops of `parse_imm`: fold the characters into a
`uint64_t` accumulator (reduced `% 2 ^ 64` at each step), failing on the
first character that is not a digit of the base. -/
def accumDigits (base : Nat) (dig : Char → Option Nat) : List Char → Nat → Option Nat
  | [], acc => some acc
  | c :: cs, acc =>
    match dig c with
    | some d => accumDigits base dig cs ((acc * base + d) % (2 ^ 64))
    | none => none

/-- The token-text part of `parse_imm` (parser.c:217-253): a token of length
at least 2 that begins with `0` must continue with `x`/`X` (hex digits
follow) or `b`/`B` (binary digits follow) — any other second character is
rejected; every other token must consist entirely of decimal digits. -/
def parse_imm_val (text : List Char) : Option Nat :=
  match text with
  | c0 :: c1 :: rest =>
    if c0 = '0' then
      if c1 = 'x' ∨ c1 = 'X' then accumDigits 16 hexDigit? rest 0
      else if c1 = 'b' ∨ c1 = 'B' then accumDigits 2 binDigit? rest 0
      else none
    else accumDigits 10 decDigit? (c0 :: c1 :: rest) 0
  | short => accumDigits 10 decDigit? short 0

/-- `parse_imm` (parser.c:211-258): the current token must be `TOK_NUM` and
its full text must convert; on success store the value in the operand and
advance, otherwise leave the parser unmoved. -/
def parse_imm (p : Parser) : Option Operand × Parser :=
  if (cur p).type = .TOK_NUM then
    match parse_imm_val (cur p).text with
    | some v => (some (.num v), (advance p).2)
    | none => (none, p)
  else (none, p)

/-- `parse_variable_operand` (parser.c:270-285): the current token must be a
`TOK_IDENT` that is a candidate variable and fully validates via
`parse_variable`; on success store the register index and advance. -/
def parse_variable_operand (p : Parser) : Option Operand × Parser :=
  if (cur p).type = .TOK_IDENT ∧ is_variable (cur p) = true then
    match parse_variable (cur p) with
    | some v => (some (.reg v), (advance p).2)
    | none => (none, p)
  else (none, p)

/-- `parse_var_or_imm` (parser.c:301-324): an identifier is parsed as a
variable, a numeric token as an immediate (the boolean is the
`is_immediate` out-parameter); a token of any other kind is *consumed*
(`advance(parser); // Skip invalid token`) and failure is reported. -/
def parse_var_or_imm (p : Parser) : Option (Operand × Bool) × Parser :=
  if (cur p).type = .TOK_IDENT then
    match parse_variable_operand p with
    | (some o, q) => (some ((o, false)), q)
    | (none, q) => (none, q)
  else if (cur p).type = .TOK_NUM then
    match parse_imm p with
    | (some o, q) => (some ((o, true)), q)
    | (none, q) => (none, q)
  else (none, (advance p).2)

/-- `strdup(token.lexeme)` on a borrowed token slice: the copy runs to the
NUL terminating the *source buffer*, not to the end of the token, so it
yields the token text followed by everything after it. -/
def strdup_tok (t : Token) : List Char := t.text ++ t.after

/-- The `TOK_ADD` case of `parse_cmd` (parser.c:412-451), entered with the
keyword still current: consume it, then destination register, two
register-or-immediate operands, and a newline/end-of-input terminator; any
failure reports the current token and discards the partial command (the
`free_command` calls have no observable effect in the model). -/
def parse_cmd_add (p : Parser) : Option Command × Parser :=
  let p1 := (advance p).2
  match parse_variable_operand p1 with
  | (none, p2) => (none, print_error p2)
  | (some dst, p2) =>
    match parse_var_or_imm p2 with
    | (none, p3) => (none, print_error p3)
    | (some (a, ia), p3) =>
      match parse_var_or_imm p3 with
      | (none, p4) => (none, print_error p4)
      | (some (b, ib), p4) =>
        if (cur p4).type = .TOK_NL ∨ (cur p4).type = .TOK_EOF then
          (some { create_command .CMD_ADD with
                    destination := dst, val_a := a, val_b := b,
                    is_a_immediate := ia, is_b_immediate := ib },
           (advance p4).2)
        else (none, print_error p4)

/-- The `TOK_SUB` case of `parse_cmd` (parser.c:453-492): same shape as the
ADD production. -/
def parse_cmd_sub (p : Parser) : Option Command × Parser :=
  let p1 := (advance p).2
  match parse_variable_operand p1 with
  | (none, p2) => (none, print_error p2)
  | (some dst, p2) =>
    match parse_var_or_imm p2 with
    | (none, p3) => (none, print_error p3)
    | (some (a, ia), p3) =>
      match parse_var_or_imm p3 with
      | (none, p4) => (none, print_error p4)
      | (some (b, ib), p4) =>
        if (cur p4).type = .TOK_NL ∨ (cur p4).type = .TOK_EOF then
          (some { create_command .CMD_SUB with
                    destination := dst, val_a := a, val_b := b,
                    is_a_immediate := ia, is_b_immediate := ib },
           (advance p4).2)
        else (none, print_error p4)

/-- The `TOK_MOV` case of `parse_cmd` (parser.c:494-526): destination
register, a single source operand, then the terminator. -/
def parse_cmd_mov (p : Parser) : Option Command × Parser :=
  let p1 := (advance p).2
  match parse_variable_operand p1 with
  | (none, p2) => (none, print_error p2)
  | (some dst, p2) =>
    match parse_var_or_imm p2 with
    | (none, p3) => (none, print_error p3)
    | (some (a, ia), p3) =>
      if (cur p3).type = .TOK_NL ∨ (cur p3).type = .TOK_EOF then
        (some { create_command .CMD_MOV with
                  destination := dst, val_a := a, is_a_immediate := ia },
         (advance p3).2)
      else (none, print_error p3)

/-- The `TOK_CMP` case of `parse_cmd` (parser.c:528-561): two
register-or-immediate inputs, no destination, then the terminator. -/
def parse_cmd_cmp (p : Parser) : Option Command × Parser :=
  let p1 := (advance p).2
  match parse_var_or_imm p1 with
  | (none, p2) => (none, print_error p2)
  | (some (a, ia), p2) =>
    match parse_var_or_imm p2 with
    | (none, p3) => (none, print_error p3)
    | (some (b, ib), p3) =>
      if (cur p3).type = .TOK_NL ∨ (cur p3).type = .TOK_EOF then
        (some { create_command .CMD_CMP with
                  val_a := a, val_b := b,
                  is_a_immediate := ia, is_b_immediate := ib },
         (advance p3).2)
      else (none, print_error p3)

/-- The `TOK_CMP_U` case of `parse_cmd` (parser.c:563-596): identical to the
CMP production except for the command kind. -/
def parse_cmd_cmp_u (p : Parser) : Option Command × Parser :=
  let p1 := (advance p).2
  match parse_var_or_imm p1 with
  | (none, p2) => (none, print_error p2)
  | (some (a, ia), p2) =>
    match parse_var_or_imm p2 with
    | (none, p3) => (none, print_error p3)
    | (some (b, ib), p3) =>
      if (cur p3).type = .TOK_NL ∨ (cur p3).type = .TOK_EOF then
        (some { create_command .CMD_CMP_U with
                  val_a := a, val_b := b,
                  is_a_immediate := ia, is_b_immediate := ib },
         (advance p3).2)
      else (none, print_error p3)

/-- The `TOK_PRINT` case of `parse_cmd` (parser.c:598-632): the current
token must pass `is_base`; its `strdup`ped text becomes the string operand
A, then one register-or-immediate operand B and the terminator. -/
def parse_cmd_print (p : Parser) : Option Command × Parser :=
  let p1 := (advance p).2
  if is_base (cur p1) then
    let sv : Operand := .str (strdup_tok (cur p1))
    let p2 := (advance p1).2
    match parse_var_or_imm p2 with
    | (none, p3) => (none, print_error p3)
    | (some (b, ib), p3) =>
      if (cur p3).type = .TOK_NL ∨ (cur p3).type = .TOK_EOF then
        (some { create_command .CMD_PRINT with
                  val_a := sv, val_b := b, is_b_immediate := ib },
         (advance p3).2)
      else (none, print_error p3)
  else (none, print_error p1)

/-- The body of `parse_cmd` after the initial `skip_nls` (parser.c:401-640):
halt if the sticky error flag is set or the stream is exhausted, dispatch on
the current keyword, and for an unrecognized leading token (the `default`
case, parser.c:634-639) report it and skip the rest of its line. -/
def parse_cmd_core (p : Parser) : Option Command × Parser :=
  if p.had_error then (none, p)
  else if (cur p).type = .TOK_EOF then (none, p)
  else
    match (cur p).type with
    | .TOK_ADD => parse_cmd_add p
    | .TOK_SUB => parse_cmd_sub p
    | .TOK_MOV => parse_cmd_mov p
    | .TOK_CMP => parse_cmd_cmp p
    | .TOK_CMP_U => parse_cmd_cmp_u p
    | .TOK_PRINT => parse_cmd_print p
    | _ =>
      let p1 := print_error p
      (none, ⟨skip_to_nl_toks p1.toks, p1.had_error, p1.diags⟩)

/-- `parse_cmd` (parser.c:398-641): skip blank lines, then run the body on
the resulting state.  (The C function is a single `switch`; its cases are
embedded as the `parse_cmd_*` definitions above.) -/
def parse_cmd (p0 : Parser) : Option Command × Parser :=
  parse_cmd_core (skip_nls p0)

/-- The per-iteration error recovery of `parse_commands` (parser.c:666-671):
when the error flag is set, discard tokens up to the next newline or
end-of-input and clear the flag. -/
def recover (q : Parser) : Parser :=
  if q.had_error then ⟨skip_to_nl_toks q.toks, false, q.diags⟩ else q

/-- The `while (!is_at_end(parser))` loop of `parse_commands`
(parser.c:650-675), with explicit fuel to make the recursion structural;
`parse_commands` supplies fuel `toks.length + 1`, which is always enough
because every iteration on a non-exhausted stream consumes at least one
token (theorem `parse_commands_at_end` certifies that the loop always exits
at the end-of-input sentinel, never by running out of fuel). -/
def parse_commands_go : Nat → Parser → List Command × Parser
  | 0, p => ([], p)
  | Nat.succ f, p =>
    if is_at_end p then ([], p)
    else
      match parse_cmd p with
      | (c?, q) =>
        match parse_commands_go f (recover q) with
        | (cs, r) =>
          (match c? with
           | some c => c :: cs
           | none => cs, r)

/-- `parse_commands` (parser.c:650-675): drive single-instruction parses to
end-of-input, appending successful commands in source order and recovering
after failures.  The final `print_commands(head)` call only prints and is
not modelled. -/
def parse_commands (p : Parser) : List Command × Parser :=
  parse_commands_go (p.toks.length + 1) p

/-- Word characters for the lexer model: anything other than a blank, a tab
or a newline extends the current word. -/
def isWordSep (c : Char) : Bool := c = ' ' ∨ c = '\t' ∨ c = '\n'

/-- Modelled from the spec: keyword classification of a lexed word
(`lexer_next_token` is not among the given sources).  The fixed instruction
keywords map to their token kinds; a word starting with a decimal digit is
a numeric literal; anything else is an identifier. -/
def classifyWord (w : List Char) : TokType :=
  if w = ['a', 'd', 'd'] then .TOK_ADD
  else if w = ['s', 'u', 'b'] then .TOK_SUB
  else if w = ['m', 'o', 'v'] then .TOK_MOV
  else if w = ['c', 'm', 'p'] then .TOK_CMP
  else if w = ['c', 'm', 'p', '_', 'u'] then .TOK_CMP_U
  else if w = ['p', 'r', 'i', 'n', 't'] then .TOK_PRINT
  else
    match w with
    | c :: _ => if c.isDigit then .TOK_NUM else .TOK_IDENT
    | [] => .TOK_IDENT

/-- Modelled from the spec: the lexer (`lexer_next_token` is not among the
given sources).  It scans the source into blank-separated words and newline
tokens, tracks 1-based line/column, slices tokens out of the buffer (each
token records the remaining buffer in `after`), and terminates the stream
with the end-of-input sentinel.  `fuel` makes the recursion structural;
every step consumes at least one character, so `tokenizeF (cs.length + 1)
cs 1 1` scans all of `cs`. -/
def tokenizeF : Nat → List Char → Nat → Nat → List Token
  | 0, _, line, col => [⟨.TOK_EOF, [], [], line, col⟩]
  | Nat.succ f, cs, line, col =>
    match cs with
    | [] => [⟨.TOK_EOF, [], [], line, col⟩]
    | c :: rest =>
      if c = '\n' then
        ⟨.TOK_NL, ['\n'], rest, line, col⟩ :: tokenizeF f rest (line + 1) 1
      else if c = ' ' ∨ c = '\t' then tokenizeF f rest line (col + 1)
      else
        let w := c :: rest.takeWhile (fun d => ¬ isWordSep d = true)
        let rest2 := rest.dropWhile (fun d => ¬ isWordSep d = true)
        ⟨classifyWord w, w, rest2, line, col⟩ :: tokenizeF f rest2 line (col + w.length)

/-- Modelled from the spec: tokenize a complete source text. -/
def lex (src : List Char) : List Token := tokenizeF (src.length + 1) src 1 1

/-- `parser_init` (parser.c:26-36) followed by nothing else: a fresh parser
over a token stream, error flag clear, no diagnostics yet.  (The label map
the C struct carries is opaque and unused by this core.) -/
def parser_init (toks : List Token) : Parser := ⟨toks, false, []⟩

/-- End-to-end pipeline on a source string: lex, then `parse_commands`. -/
def parseProgram (src : String) : List Command × Parser :=
  parse_commands (parser_init (lex src.toList))

/-- A register index stored in an operand slot is in range; numeric and
string slots carry no register index. -/
def operandRegOk (o : Operand) : Prop :=
  match o with
  | .reg v => 0 ≤ v ∧ v ≤ 31
  | _ => True

instance (o : Operand) : Decidable (operandRegOk o) :=
  match o with
  | .reg v => inferInstanceAs (Decidable (0 ≤ v ∧ v ≤ 31))
  | .num _ => inferInstanceAs (Decidable True)
  | .str _ => inferInstanceAs (Decidable True)

/-- Structural invariant of every command the parser builds: the string
flags are never set and every register index lies in [0, 31]. -/
def cmdInv (c : Command) : Prop :=
  c.is_a_string = false ∧ c.is_b_string = false ∧
    operandRegOk c.destination ∧ operandRegOk c.val_a ∧ operandRegOk c.val_b

instance (c : Command) : Decidable (cmdInv c) :=
  inferInstanceAs (Decidable (_ ∧ _ ∧ _ ∧ _ ∧ _))

/-- A token that fully validates as a register operand with index `v`. -/
def regTok (t : Token) (v : Int) : Prop :=
  t.type = TokType.TOK_IDENT ∧ is_variable t = true ∧ parse_variable t = some v

instance (t : Token) (v : Int) : Decidable (regTok t v) :=
  inferInstanceAs (Decidable (_ ∧ _ ∧ _))

/-- A token that `parse_var_or_imm` resolves to operand `o` with immediate
flag `imm`: either a fully validating register identifier, or a numeric
literal whose whole text converts. -/
def opTok (t : Token) (o : Operand) (imm : Bool) : Prop :=
  (imm = false ∧ ∃ v, o = .reg v ∧ regTok t v) ∨
    (imm = true ∧ ∃ v, o = .num v ∧ t.type = TokType.TOK_NUM ∧ parse_imm_val t.text = some v)

/-- Decimal rendering of a register index in [0, 99] (enough for the
register file's 32 slots), used to state the `x0`..`x31` acceptance claim. -/
def decRepr2 (n : Nat) : List Char :=
  if n < 10 then [Char.ofNat (48 + n)]
  else [Char.ofNat (48 + n / 10), Char.ofNat (48 + n % 10)]

/-- Claim C6's reading of a register token: `x` followed by one or more
characters that are all decimal digits and denote a value at most 31. -/
def specRegisterAccept (t : Token) : Prop :=
  2 ≤ t.text.length ∧ t.text.headD ' ' = 'x' ∧
    (t.text.drop 1).all Char.isDigit = true ∧ decDigitsVal (t.text.drop 1) ≤ 31

instance (t : Token) : Decidable (specRegisterAccept t) :=
  inferInstanceAs (Decidable (_ ∧ _ ∧ _ ∧ _))

/-- Fold a digit string of the given base into the 64-bit accumulator. -/
def digitsFold (base : Nat) (dig : Char → Option Nat) (cs : List Char) : Nat :=
  cs.foldl (fun a c => (a * base + (dig c).getD 0) % (2 ^ 64)) 0

/-- The amended numeric-literal contract of claim C4, written from the
spec's words with the one correction the code forces: a literal is `0x`/`0X`
followed by hex digits (possibly none), or `0b`/`0B` followed by binary
digits (possibly none), or a token of decimal digits that is either the
single character `0`..`9` or does not start with `0`; a multi-character
token starting with `0` whose second character is not a base letter (such
as `09`) is rejected. -/
def specNumericVal (text : List Char) : Option Nat :=
  match text with
  | c0 :: c1 :: rest =>
    if c0 = '0' then
      if c1 = 'x' ∨ c1 = 'X' then
        if rest.all (fun ch => (hexDigit? ch).isSome) then
          some (digitsFold 16 hexDigit? rest)
        else none
      else if c1 = 'b' ∨ c1 = 'B' then
        if rest.all (fun ch => (binDigit? ch).isSome) then
          some (digitsFold 2 binDigit? rest)
        else none
      else none
    else
      if (c0 :: c1 :: rest).all (fun ch => (decDigit? ch).isSome) then
        some (digitsFold 10 decDigit? (c0 :: c1 :: rest))
      else none
  | short =>
    if short.all (fun ch => (decDigit? ch).isSome) then
      some (digitsFold 10 decDigit? short)
    else none

/-! ### Basic facts about the parser state primitives -/

theorem cur_cons (t : Token) (l : List Token) (e : Bool) (d : List Token) :
    cur ⟨t :: l, e, d⟩ = t := rfl

theorem toks_ne_nil_of_not_at_end {p : Parser} (h : ¬ is_at_end p) : p.toks ≠ [] := by
  intro hnil
  apply h
  unfold is_at_end cur
  rw [hnil]
  rfl

theorem advance_at_end {p : Parser} (h : is_at_end p) : advance p = (cur p, p) := by
  unfold advance
  rw [if_pos h]

theorem advance_cons {t : Token} {l : List Token} {e : Bool} {d : List Token}
    (h : t.type ≠ TokType.TOK_EOF) : advance ⟨t :: l, e, d⟩ = (t, ⟨l, e, d⟩) := by
  unfold advance is_at_end cur
  simp [h]

theorem advance_out (p : Parser) :
    (advance p).2.had_error = p.had_error ∧ (advance p).2.diags = p.diags ∧
      (advance p).2.toks.length ≤ p.toks.length := by
  unfold advance
  split
  · exact ⟨rfl, rfl, le_refl _⟩
  · refine ⟨rfl, rfl, ?_⟩
    have h := List.length_tail p.toks
    simp only [h]
    omega

theorem advance_toks_lt {p : Parser} (h : ¬ is_at_end p) :
    (advance p).2.toks.length < p.toks.length := by
  unfold advance
  rw [if_neg h]
  have hne := toks_ne_nil_of_not_at_end h
  cases htoks : p.toks with
  | nil => exact absurd htoks hne
  | cons t l => simp [htoks]

theorem skip_nls_toks_length_le (l : List Token) :
    (skip_nls_toks l).length ≤ l.length := by
  induction l with
  | nil => simp [skip_nls_toks]
  | cons t l ih =>
    unfold skip_nls_toks
    split
    · exact le_trans ih (Nat.le_succ _)
    · exact le_refl _

theorem skip_nls_toks_cons_nl {t : Token} {l : List Token}
    (h : t.type = TokType.TOK_NL) : skip_nls_toks (t :: l) = skip_nls_toks l := by
  rw [skip_nls_toks]
  rw [if_pos h]

theorem skip_nls_toks_cons_not_nl {t : Token} {l : List Token}
    (h : t.type ≠ TokType.TOK_NL) : skip_nls_toks (t :: l) = t :: l := by
  rw [skip_nls_toks]
  rw [if_neg h]

theorem skip_nls_toks_head_not_nl (l : List Token) :
    ((skip_nls_toks l).headD eofTok).type ≠ TokType.TOK_NL := by
  induction l with
  | nil => simp [skip_nls_toks, eofTok]
  | cons t l ih =>
    by_cases h : t.type = TokType.TOK_NL
    · rw [skip_nls_toks_cons_nl h]
      exact ih
    · rw [skip_nls_toks_cons_not_nl h]
      simpa using h

theorem skip_nls_id {p : Parser} (h : (cur p).type ≠ TokType.TOK_NL) :
    skip_nls p = p := by
  obtain ⟨toks, e, d⟩ := p
  cases toks with
  | nil => simp [skip_nls, skip_nls_toks]
  | cons t l =>
    have ht : t.type ≠ TokType.TOK_NL := h
    simp [skip_nls, skip_nls_toks_cons_not_nl ht]

theorem skip_nls_skip (p : Parser) : skip_nls (skip_nls p) = skip_nls p := by
  apply skip_nls_id
  exact skip_nls_toks_head_not_nl p.toks

theorem parse_cmd_skip (p : Parser) : parse_cmd (skip_nls p) = parse_cmd p := by
  unfold parse_cmd
  rw [skip_nls_skip]

theorem skip_to_nl_toks_length_le (l : List Token) :
    (skip_to_nl_toks l).length ≤ l.length := by
  induction l with
  | nil => simp [skip_to_nl_toks]
  | cons t l ih =>
    unfold skip_to_nl_toks
    split
    · exact le_refl _
    · exact le_trans ih (Nat.le_succ _)

theorem skip_to_nl_toks_cons_lt {t : Token} {l : List Token}
    (h1 : t.type ≠ TokType.TOK_NL) (h2 : t.type ≠ TokType.TOK_EOF) :
    (skip_to_nl_toks (t :: l)).length < (t :: l).length := by
  unfold skip_to_nl_toks
  rw [if_neg (by simp [h1, h2])]
  exact lt_of_le_of_lt (skip_to_nl_toks_length_le l) (Nat.lt_succ_self _)

/-! ### The operand sub-parsers: ranges, preservation, success shapes -/

theorem parse_variable_range {t : Token} {v : Int}
    (h : parse_variable t = some v) : 0 ≤ v ∧ v ≤ 31 := by
  unfold parse_variable at h
  dsimp only at h
  split at h
  · cases h
    rename_i hc
    exact ⟨hc.2.1, hc.2.2⟩
  · cases h

theorem parse_imm_some_shape {p : Parser} {o : Operand} {q : Parser}
    (h : parse_imm p = (some o, q)) : ∃ v, o = Operand.num v := by
  unfold parse_imm at h
  split at h
  · cases hv : parse_imm_val (cur p).text with
    | some v =>
      rw [hv] at h
      injection h with h1 h2
      injection h1 with h1
      exact ⟨v, h1.symm⟩
    | none =>
      rw [hv] at h
      cases h
  · cases h

theorem parse_imm_out (p : Parser) :
    (parse_imm p).2.had_error = p.had_error ∧ (parse_imm p).2.diags = p.diags ∧
      (parse_imm p).2.toks.length ≤ p.toks.length := by
  unfold parse_imm
  split
  · split
    · exact advance_out p
    · exact ⟨rfl, rfl, le_refl _⟩
  · exact ⟨rfl, rfl, le_refl _⟩

theorem parse_variable_operand_out (p : Parser) :
    (parse_variable_operand p).2.had_error = p.had_error ∧
      (parse_variable_operand p).2.diags = p.diags ∧
      (parse_variable_operand p).2.toks.length ≤ p.toks.length ∧
      (∀ o, (parse_variable_operand p).1 = some o → operandRegOk o) := by
  unfold parse_variable_operand
  split
  · split
    · rename_i v hv
      refine ⟨(advance_out p).1, (advance_out p).2.1, (advance_out p).2.2, ?_⟩
      intro o ho
      cases ho
      exact parse_variable_range hv
    · exact ⟨rfl, rfl, le_refl _, by intro o ho; cases ho⟩
  · exact ⟨rfl, rfl, le_refl _, by intro o ho; cases ho⟩

theorem parse_var_or_imm_out (p : Parser) :
    (parse_var_or_imm p).2.had_error = p.had_error ∧
      (parse_var_or_imm p).2.diags = p.diags ∧
      (parse_var_or_imm p).2.toks.length ≤ p.toks.length ∧
      (∀ o imm, (parse_var_or_imm p).1 = some (o, imm) → operandRegOk o) := by
  unfold parse_var_or_imm
  split
  · cases hvo : parse_variable_operand p with
    | mk r q =>
      have hout := parse_variable_operand_out p
      rw [hvo] at hout
      cases r with
      | some o =>
        simp only [hvo]
        refine ⟨hout.1, hout.2.1, hout.2.2.1, ?_⟩
        intro o2 imm ho
        cases ho
        exact hout.2.2.2 o rfl
      | none =>
        simp only [hvo]
        exact ⟨hout.1, hout.2.1, hout.2.2.1, by intro o imm ho; cases ho⟩
  · split
    · cases him : parse_imm p with
      | mk r q =>
        have hout := parse_imm_out p
        rw [him] at hout
        cases r with
        | some o =>
          simp only [him]
          refine ⟨hout.1, hout.2.1, hout.2.2, ?_⟩
          intro o2 imm ho
          cases ho
          obtain ⟨v, hv⟩ := parse_imm_some_shape him
          rw [hv]
          simp [operandRegOk]
        | none =>
          simp only [him]
          exact ⟨hout.1, hout.2.1, hout.2.2, by intro o imm ho; cases ho⟩
    · exact ⟨(advance_out p).1, (advance_out p).2.1, (advance_out p).2.2,
        by intro o imm ho; cases ho⟩

/-! ### One parse_cmd step: token consumption, diagnostics, command shape -/

/-- What one instruction parse does to the state `p` it started from:
it never grows the stream; it strictly consumes tokens unless it started on
a newline or the sentinel; it emits exactly one diagnostic when (and only
when) it leaves the error flag set; and a returned command satisfies the
structural invariant, with no error and no diagnostic emitted. -/
def stepOK (p : Parser) (r : Option Command × Parser) : Prop :=
  r.2.toks.length ≤ p.toks.length ∧
    ((cur p).type ≠ TokType.TOK_NL → ¬ is_at_end p → r.2.toks.length < p.toks.length) ∧
    r.2.diags.length = p.diags.length + r.2.had_error.toNat ∧
    (∀ c, r.1 = some c → cmdInv c ∧ r.2.had_error = false ∧ r.2.diags = p.diags)

theorem stepOK_fail (p q : Parser) (_he : p.had_error = false)
    (hdi : q.diags = p.diags) (hle : q.toks.length ≤ (advance p).2.toks.length) :
    stepOK p (none, print_error q) := by
  refine ⟨?_, ?_, ?_, ?_⟩
  · exact le_trans hle (advance_out p).2.2
  · intro _ hend
    exact lt_of_le_of_lt hle (advance_toks_lt hend)
  · show (q.diags ++ [cur q]).length = p.diags.length + (true : Bool).toNat
    simp [hdi]
  · intro c hc
    cases hc

theorem stepOK_succ (p q : Parser) (c : Command) (_he : p.had_error = false)
    (herr : q.had_error = false) (hdi : q.diags = p.diags)
    (hle : q.toks.length ≤ (advance p).2.toks.length) (hc : cmdInv c) :
    stepOK p (some c, (advance q).2) := by
  refine ⟨?_, ?_, ?_, ?_⟩
  · exact le_trans (advance_out q).2.2 (le_trans hle (advance_out p).2.2)
  · intro _ hend
    exact lt_of_le_of_lt (le_trans (advance_out q).2.2 hle) (advance_toks_lt hend)
  · rw [(advance_out q).2.1, (advance_out q).1, herr, hdi]
    rfl
  · intro c2 hc2
    cases hc2
    exact ⟨hc, by rw [(advance_out q).1, herr], by rw [(advance_out q).2.1, hdi]⟩

theorem parse_cmd_add_out (p : Parser) (he : p.had_error = false) :
    stepOK p (parse_cmd_add p) := by
  unfold parse_cmd_add
  dsimp only
  cases h1 : parse_variable_operand (advance p).2 with
  | mk r1 q1 =>
    have ho1 := parse_variable_operand_out (advance p).2
    rw [h1] at ho1
    have e1 : q1.had_error = false := by rw [ho1.1, (advance_out p).1, he]
    have d1 : q1.diags = p.diags := by rw [ho1.2.1, (advance_out p).2.1]
    have l1 : q1.toks.length ≤ (advance p).2.toks.length := ho1.2.2.1
    cases r1 with
    | none =>
      dsimp only
      exact stepOK_fail p q1 he d1 l1
    | some dst =>
      dsimp only
      cases h2 : parse_var_or_imm q1 with
      | mk r2 q2 =>
        have ho2 := parse_var_or_imm_out q1
        rw [h2] at ho2
        have e2 : q2.had_error = false := by rw [ho2.1, e1]
        have d2 : q2.diags = p.diags := by rw [ho2.2.1, d1]
        have l2 : q2.toks.length ≤ (advance p).2.toks.length :=
          le_trans ho2.2.2.1 l1
        cases r2 with
        | none =>
          dsimp only
          exact stepOK_fail p q2 he d2 l2
        | some ai =>
          cases ai with
          | mk a ia =>
            dsimp only
            cases h3 : parse_var_or_imm q2 with
            | mk r3 q3 =>
              have ho3 := parse_var_or_imm_out q2
              rw [h3] at ho3
              have e3 : q3.had_error = false := by rw [ho3.1, e2]
              have d3 : q3.diags = p.diags := by rw [ho3.2.1, d2]
              have l3 : q3.toks.length ≤ (advance p).2.toks.length :=
                le_trans ho3.2.2.1 l2
              cases r3 with
              | none =>
                dsimp only
                exact stepOK_fail p q3 he d3 l3
              | some bi =>
                cases bi with
                | mk b ib =>
                  dsimp only
                  by_cases hterm :
                      (cur q3).type = TokType.TOK_NL ∨ (cur q3).type = TokType.TOK_EOF
                  · rw [if_pos hterm]
                    refine stepOK_succ p q3 _ he e3 d3 l3 ?_
                    exact ⟨rfl, rfl, ho1.2.2.2 dst rfl, ho2.2.2.2 a ia rfl,
                      ho3.2.2.2 b ib rfl⟩
                  · rw [if_neg hterm]
                    exact stepOK_fail p q3 he d3 l3

theorem parse_cmd_sub_out (p : Parser) (he : p.had_error = false) :
    stepOK p (parse_cmd_sub p) := by
  unfold parse_cmd_sub
  dsimp only
  cases h1 : parse_variable_operand (advance p).2 with
  | mk r1 q1 =>
    have ho1 := parse_variable_operand_out (advance p).2
    rw [h1] at ho1
    have e1 : q1.had_error = false := by rw [ho1.1, (advance_out p).1, he]
    have d1 : q1.diags = p.diags := by rw [ho1.2.1, (advance_out p).2.1]
    have l1 : q1.toks.length ≤ (advance p).2.toks.length := ho1.2.2.1
    cases r1 with
    | none =>
      dsimp only
      exact stepOK_fail p q1 he d1 l1
    | some dst =>
      dsimp only
      cases h2 : parse_var_or_imm q1 with
      | mk r2 q2 =>
        have ho2 := parse_var_or_imm_out q1
        rw [h2] at ho2
        have e2 : q2.had_error = false := by rw [ho2.1, e1]
        have d2 : q2.diags = p.diags := by rw [ho2.2.1, d1]
        have l2 : q2.toks.length ≤ (advance p).2.toks.length :=
          le_trans ho2.2.2.1 l1
        cases r2 with
        | none =>
          dsimp only
          exact stepOK_fail p q2 he d2 l2
        | some ai =>
          cases ai with
          | mk a ia =>
            dsimp only
            cases h3 : parse_var_or_imm q2 with
            | mk r3 q3 =>
              have ho3 := parse_var_or_imm_out q2
              rw [h3] at ho3
              have e3 : q3.had_error = false := by rw [ho3.1, e2]
              have d3 : q3.diags = p.diags := by rw [ho3.2.1, d2]
              have l3 : q3.toks.length ≤ (advance p).2.toks.length :=
                le_trans ho3.2.2.1 l2
              cases r3 with
              | none =>
                dsimp only
                exact stepOK_fail p q3 he d3 l3
              | some bi =>
                cases bi with
                | mk b ib =>
                  dsimp only
                  by_cases hterm :
                      (cur q3).type = TokType.TOK_NL ∨ (cur q3).type = TokType.TOK_EOF
                  · rw [if_pos hterm]
                    refine stepOK_succ p q3 _ he e3 d3 l3 ?_
                    exact ⟨rfl, rfl, ho1.2.2.2 dst rfl, ho2.2.2.2 a ia rfl,
                      ho3.2.2.2 b ib rfl⟩
                  · rw [if_neg hterm]
                    exact stepOK_fail p q3 he d3 l3

theorem parse_cmd_mov_out (p : Parser) (he : p.had_error = false) :
    stepOK p (parse_cmd_mov p) := by
  unfold parse_cmd_mov
  dsimp only
  cases h1 : parse_variable_operand (advance p).2 with
  | mk r1 q1 =>
    have ho1 := parse_variable_operand_out (advance p).2
    rw [h1] at ho1
    have e1 : q1.had_error = false := by rw [ho1.1, (advance_out p).1, he]
    have d1 : q1.diags = p.diags := by rw [ho1.2.1, (advance_out p).2.1]
    have l1 : q1.toks.length ≤ (advance p).2.toks.length := ho1.2.2.1
    cases r1 with
    | none =>
      dsimp only
      exact stepOK_fail p q1 he d1 l1
    | some dst =>
      dsimp only
      cases h2 : parse_var_or_imm q1 with
      | mk r2 q2 =>
        have ho2 := parse_var_or_imm_out q1
        rw [h2] at ho2
        have e2 : q2.had_error = false := by rw [ho2.1, e1]
        have d2 : q2.diags = p.diags := by rw [ho2.2.1, d1]
        have l2 : q2.toks.length ≤ (advance p).2.toks.length :=
          le_trans ho2.2.2.1 l1
        cases r2 with
        | none =>
          dsimp only
          exact stepOK_fail p q2 he d2 l2
        | some ai =>
          cases ai with
          | mk a ia =>
            dsimp only
            by_cases hterm :
                (cur q2).type = TokType.TOK_NL ∨ (cur q2).type = TokType.TOK_EOF
            · rw [if_pos hterm]
              refine stepOK_succ p q2 _ he e2 d2 l2 ?_
              exact ⟨rfl, rfl, ho1.2.2.2 dst rfl, ho2.2.2.2 a ia rfl, trivial⟩
            · rw [if_neg hterm]
              exact stepOK_fail p q2 he d2 l2

theorem parse_cmd_cmp_out (p : Parser) (he : p.had_error = false) :
    stepOK p (parse_cmd_cmp p) := by
  unfold parse_cmd_cmp
  dsimp only
  cases h1 : parse_var_or_imm (advance p).2 with
  | mk r1 q1 =>
    have ho1 := parse_var_or_imm_out (advance p).2
    rw [h1] at ho1
    have e1 : q1.had_error = false := by rw [ho1.1, (advance_out p).1, he]
    have d1 : q1.diags = p.diags := by rw [ho1.2.1, (advance_out p).2.1]
    have l1 : q1.toks.length ≤ (advance p).2.toks.length := ho1.2.2.1
    cases r1 with
    | none =>
      dsimp only
      exact stepOK_fail p q1 he d1 l1
    | some ai =>
      cases ai with
      | mk a ia =>
        dsimp only
        cases h2 : parse_var_or_imm q1 with
        | mk r2 q2 =>
          have ho2 := parse_var_or_imm_out q1
          rw [h2] at ho2
          have e2 : q2.had_error = false := by rw [ho2.1, e1]
          have d2 : q2.diags = p.diags := by rw [ho2.2.1, d1]
          have l2 : q2.toks.length ≤ (advance p).2.toks.length :=
            le_trans ho2.2.2.1 l1
          cases r2 with
          | none =>
            dsimp only
            exact stepOK_fail p q2 he d2 l2
          | some bi =>
            cases bi with
            | mk b ib =>
              dsimp only
              by_cases hterm :
                  (cur q2).type = TokType.TOK_NL ∨ (cur q2).type = TokType.TOK_EOF
              · rw [if_pos hterm]
                refine stepOK_succ p q2 _ he e2 d2 l2 ?_
                exact ⟨rfl, rfl, trivial, ho1.2.2.2 a ia rfl, ho2.2.2.2 b ib rfl⟩
              · rw [if_neg hterm]
                exact stepOK_fail p q2 he d2 l2

theorem parse_cmd_cmp_u_out (p : Parser) (he : p.had_error = false) :
    stepOK p (parse_cmd_cmp_u p) := by
  unfold parse_cmd_cmp_u
  dsimp only
  cases h1 : parse_var_or_imm (advance p).2 with
  | mk r1 q1 =>
    have ho1 := parse_var_or_imm_out (advance p).2
    rw [h1] at ho1
    have e1 : q1.had_error = false := by rw [ho1.1, (advance_out p).1, he]
    have d1 : q1.diags = p.diags := by rw [ho1.2.1, (advance_out p).2.1]
    have l1 : q1.toks.length ≤ (advance p).2.toks.length := ho1.2.2.1
    cases r1 with
    | none =>
      dsimp only
      exact stepOK_fail p q1 he d1 l1
    | some ai =>
      cases ai with
      | mk a ia =>
        dsimp only
        cases h2 : parse_var_or_imm q1 with
        | mk r2 q2 =>
          have ho2 := parse_var_or_imm_out q1
          rw [h2] at ho2
          have e2 : q2.had_error = false := by rw [ho2.1, e1]
          have d2 : q2.diags = p.diags := by rw [ho2.2.1, d1]
          have l2 : q2.toks.length ≤ (advance p).2.toks.length :=
            le_trans ho2.2.2.1 l1
          cases r2 with
          | none =>
            dsimp only
            exact stepOK_fail p q2 he d2 l2
          | some bi =>
            cases bi with
            | mk b ib =>
              dsimp only
              by_cases hterm :
                  (cur q2).type = TokType.TOK_NL ∨ (cur q2).type = TokType.TOK_EOF
              · rw [if_pos hterm]
                refine stepOK_succ p q2 _ he e2 d2 l2 ?_
                exact ⟨rfl, rfl, trivial, ho1.2.2.2 a ia rfl, ho2.2.2.2 b ib rfl⟩
              · rw [if_neg hterm]
                exact stepOK_fail p q2 he d2 l2

theorem parse_cmd_print_out (p : Parser) (he : p.had_error = false) :
    stepOK p (parse_cmd_print p) := by
  unfold parse_cmd_print
  dsimp only
  by_cases hbase : is_base (cur (advance p).2) = true
  · rw [if_pos hbase]
    cases h2 : parse_var_or_imm (advance (advance p).2).2 with
    | mk r2 q2 =>
      have ho2 := parse_var_or_imm_out (advance (advance p).2).2
      rw [h2] at ho2
      have e2 : q2.had_error = false := by
        rw [ho2.1, (advance_out (advance p).2).1, (advance_out p).1, he]
      have d2 : q2.diags = p.diags := by
        rw [ho2.2.1, (advance_out (advance p).2).2.1, (advance_out p).2.1]
      have l2 : q2.toks.length ≤ (advance p).2.toks.length :=
        le_trans ho2.2.2.1 (advance_out (advance p).2).2.2
      cases r2 with
      | none =>
        dsimp only
        exact stepOK_fail p q2 he d2 l2
      | some bi =>
        cases bi with
        | mk b ib =>
          dsimp only
          by_cases hterm :
              (cur q2).type = TokType.TOK_NL ∨ (cur q2).type = TokType.TOK_EOF
          · rw [if_pos hterm]
            refine stepOK_succ p q2 _ he e2 d2 l2 ?_
            exact ⟨rfl, rfl, trivial, trivial, ho2.2.2.2 b ib rfl⟩
          · rw [if_neg hterm]
            exact stepOK_fail p q2 he d2 l2
  · rw [if_neg hbase]
    exact stepOK_fail p (advance p).2 he (advance_out p).2.1 (le_refl _)

theorem skip_to_nl_toks_lt_of_head {l : List Token} (hne : l ≠ [])
    (h1 : (l.headD eofTok).type ≠ TokType.TOK_NL)
    (h2 : (l.headD eofTok).type ≠ TokType.TOK_EOF) :
    (skip_to_nl_toks l).length < l.length := by
  cases l with
  | nil => exact absurd rfl hne
  | cons t l => exact skip_to_nl_toks_cons_lt h1 h2

theorem stepOK_unrecognized (p : Parser) :
    stepOK p
      (none, ⟨skip_to_nl_toks (print_error p).toks, (print_error p).had_error,
        (print_error p).diags⟩) := by
  refine ⟨?_, ?_, ?_, ?_⟩
  · exact skip_to_nl_toks_length_le p.toks
  · intro hnl hend
    exact skip_to_nl_toks_lt_of_head (toks_ne_nil_of_not_at_end hend) hnl
      (fun hh => hend hh)
  · show (p.diags ++ [cur p]).length = p.diags.length + (true : Bool).toNat
    simp
  · intro c hc
    cases hc

theorem parse_cmd_core_out (p : Parser) (he : p.had_error = false) :
    stepOK p (parse_cmd_core p) := by
  unfold parse_cmd_core
  rw [if_neg (by simp [he])]
  by_cases hEOF : (cur p).type = TokType.TOK_EOF
  · rw [if_pos hEOF]
    refine ⟨le_refl _, ?_, ?_, ?_⟩
    · intro _ hend
      exact absurd hEOF hend
    · show p.diags.length = p.diags.length + p.had_error.toNat
      rw [he]
      rfl
    · intro c hc
      cases hc
  · rw [if_neg hEOF]
    cases htype : (cur p).type with
    | TOK_ADD =>
      exact parse_cmd_add_out p he
    | TOK_SUB =>
      exact parse_cmd_sub_out p he
    | TOK_MOV =>
      exact parse_cmd_mov_out p he
    | TOK_CMP =>
      exact parse_cmd_cmp_out p he
    | TOK_CMP_U =>
      exact parse_cmd_cmp_u_out p he
    | TOK_PRINT =>
      exact parse_cmd_print_out p he
    | TOK_IDENT =>
      exact stepOK_unrecognized p
    | TOK_NUM =>
      exact stepOK_unrecognized p
    | TOK_NL =>
      exact stepOK_unrecognized p
    | TOK_EOF =>
      exact absurd htype hEOF

theorem parse_cmd_out (p : Parser) (he : p.had_error = false) :
    stepOK (skip_nls p) (parse_cmd p) := by
  unfold parse_cmd
  exact parse_cmd_core_out (skip_nls p) he

theorem recover_toks_le (q : Parser) : (recover q).toks.length ≤ q.toks.length := by
  unfold recover
  split
  · exact skip_to_nl_toks_length_le q.toks
  · exact le_refl _

theorem recover_err (q : Parser) : (recover q).had_error = false := by
  unfold recover
  split
  · rfl
  · rename_i h
    simpa using h

theorem skip_nls_lt_of_nl {p : Parser} (hnl : (cur p).type = TokType.TOK_NL) :
    (skip_nls p).toks.length < p.toks.length := by
  obtain ⟨toks, e, d⟩ := p
  cases toks with
  | nil => exact absurd hnl (by simp [cur, eofTok])
  | cons t l =>
    have ht : t.type = TokType.TOK_NL := hnl
    show (skip_nls_toks (t :: l)).length < (t :: l).length
    rw [skip_nls_toks_cons_nl ht]
    exact lt_of_le_of_lt (skip_nls_toks_length_le l) (Nat.lt_succ_self _)

theorem parse_cmd_of_err {p : Parser} (he : p.had_error = true) :
    parse_cmd p = (none, skip_nls p) := by
  unfold parse_cmd parse_cmd_core
  rw [if_pos]
  show (skip_nls p).had_error = true
  exact he

theorem parse_cmd_diag (p : Parser) (he : p.had_error = false) :
    (parse_cmd p).2.diags.length = p.diags.length + (parse_cmd p).2.had_error.toNat ∧
      (∀ c, (parse_cmd p).1 = some c →
        cmdInv c ∧ (parse_cmd p).2.had_error = false ∧ (parse_cmd p).2.diags = p.diags) := by
  have hs := parse_cmd_out p he
  exact ⟨hs.2.2.1, hs.2.2.2⟩

theorem parse_cmd_progress (p : Parser) (he : p.had_error = false)
    (hend : ¬ is_at_end p) :
    (recover (parse_cmd p).2).toks.length < p.toks.length := by
  have hs := parse_cmd_out p he
  have hrec : (recover (parse_cmd p).2).toks.length ≤ (parse_cmd p).2.toks.length :=
    recover_toks_le _
  by_cases hnl : (cur p).type = TokType.TOK_NL
  · exact lt_of_le_of_lt (le_trans hrec hs.1) (skip_nls_lt_of_nl hnl)
  · rw [skip_nls_id hnl] at hs
    exact lt_of_le_of_lt hrec (hs.2.1 hnl hend)

theorem skip_skip_lt {p : Parser} (hend : ¬ is_at_end p) :
    (skip_to_nl_toks (skip_nls_toks p.toks)).length < p.toks.length := by
  by_cases hnl : (cur p).type = TokType.TOK_NL
  · exact lt_of_le_of_lt (skip_to_nl_toks_length_le _) (skip_nls_lt_of_nl hnl)
  · have hskip : skip_nls_toks p.toks = p.toks :=
      congrArg Parser.toks (skip_nls_id hnl)
    rw [hskip]
    have hne := toks_ne_nil_of_not_at_end hend
    cases htoks : p.toks with
    | nil => exact absurd htoks hne
    | cons t l =>
      have ht : cur p = t := by unfold cur; rw [htoks]; rfl
      refine skip_to_nl_toks_cons_lt (by rw [← ht]; exact hnl) ?_
      rw [← ht]
      intro hh
      exact hend hh

theorem step_progress (p : Parser) (hend : ¬ is_at_end p) :
    (recover (parse_cmd p).2).toks.length < p.toks.length := by
  by_cases he : p.had_error = false
  · exact parse_cmd_progress p he hend
  · have he2 : p.had_error = true := by
      revert he
      cases p.had_error <;> simp
    rw [parse_cmd_of_err he2]
    show (recover (skip_nls p)).toks.length < p.toks.length
    unfold recover
    rw [if_pos (show (skip_nls p).had_error = true from he2)]
    exact skip_skip_lt hend

theorem go_at_end (f : Nat) :
    ∀ p : Parser, p.toks.length < f → is_at_end (parse_commands_go f p).2 := by
  induction f with
  | zero =>
    intro p h
    omega
  | succ f ih =>
    intro p h
    rw [parse_commands_go]
    by_cases hend : is_at_end p
    · rw [if_pos hend]
      exact hend
    · rw [if_neg hend]
      cases hpc : parse_cmd p with
      | mk c? q =>
        dsimp only
        cases hgo : parse_commands_go f (recover q) with
        | mk cs r =>
          dsimp only
          have hlt : (recover q).toks.length < f := by
            have hp := step_progress p hend
            rw [hpc] at hp
            dsimp only at hp
            omega
          have := ih (recover q) hlt
          rw [hgo] at this
          exact this

theorem parse_commands_at_end (p : Parser) : is_at_end (parse_commands p).2 := by
  unfold parse_commands
  exact go_at_end (p.toks.length + 1) p (Nat.lt_succ_self _)

theorem go_mem (f : Nat) :
    ∀ (p : Parser) (c : Command), c ∈ (parse_commands_go f p).1 → cmdInv c := by
  induction f with
  | zero =>
    intro p c hc
    rw [parse_commands_go] at hc
    cases hc
  | succ f ih =>
    intro p c hc
    rw [parse_commands_go] at hc
    by_cases hend : is_at_end p
    · rw [if_pos hend] at hc
      cases hc
    · rw [if_neg hend] at hc
      cases hpc : parse_cmd p with
      | mk c? q =>
        rw [hpc] at hc
        dsimp only at hc
        cases hgo : parse_commands_go f (recover q) with
        | mk cs r =>
          rw [hgo] at hc
          dsimp only at hc
          have hcs : c ∈ cs → cmdInv c := by
            intro hmem
            have := ih (recover q) c
            rw [hgo] at this
            exact this hmem
          cases c? with
          | none => exact hcs hc
          | some c0 =>
            rcases List.mem_cons.mp hc with hh | hh
            · subst hh
              by_cases he : p.had_error = false
              · exact ((parse_cmd_diag p he).2 c (by rw [hpc])).1
              · exfalso
                have he2 : p.had_error = true := by
                  revert he
                  cases p.had_error <;> simp
                rw [parse_cmd_of_err he2] at hpc
                cases hpc
            · exact hcs hh

theorem parse_commands_mem {p : Parser} {c : Command}
    (hc : c ∈ (parse_commands p).1) : cmdInv c := by
  unfold parse_commands at hc
  exact go_mem (p.toks.length + 1) p c hc

/-! ### Success paths: what a well-formed instruction parses to -/

theorem parse_variable_operand_success {t : Token} {l : List Token} {e : Bool}
    {d : List Token} {v : Int} (h1 : t.type = TokType.TOK_IDENT)
    (h2 : is_variable t = true) (h3 : parse_variable t = some v) :
    parse_variable_operand ⟨t :: l, e, d⟩ = (some (.reg v), ⟨l, e, d⟩) := by
  have hne : t.type ≠ TokType.TOK_EOF := by
    rw [h1]
    intro hh
    cases hh
  unfold parse_variable_operand
  simp only [cur_cons]
  rw [if_pos (show t.type = TokType.TOK_IDENT ∧ is_variable t = true from ⟨h1, h2⟩), h3]
  dsimp only
  rw [advance_cons hne]

theorem parse_imm_success {t : Token} {l : List Token} {e : Bool} {d : List Token}
    {v : Nat} (h1 : t.type = TokType.TOK_NUM) (h2 : parse_imm_val t.text = some v) :
    parse_imm ⟨t :: l, e, d⟩ = (some (.num v), ⟨l, e, d⟩) := by
  have hne : t.type ≠ TokType.TOK_EOF := by
    rw [h1]
    intro hh
    cases hh
  unfold parse_imm
  simp only [cur_cons]
  rw [if_pos h1, h2]
  dsimp only
  rw [advance_cons hne]

theorem parse_var_or_imm_opTok {t : Token} {l : List Token} {e : Bool}
    {d : List Token} {o : Operand} {imm : Bool} (h : opTok t o imm) :
    parse_var_or_imm ⟨t :: l, e, d⟩ = (some ((o, imm)), ⟨l, e, d⟩) := by
  unfold opTok at h
  rcases h with ⟨himm, v, ho, hreg⟩ | ⟨himm, v, ho, h1, h2⟩
  · subst himm
    subst ho
    unfold regTok at hreg
    obtain ⟨h1, h2, h3⟩ := hreg
    unfold parse_var_or_imm
    simp only [cur_cons]
    rw [if_pos h1, parse_variable_operand_success h1 h2 h3]
  · subst himm
    subst ho
    unfold parse_var_or_imm
    simp only [cur_cons]
    rw [if_neg (by rw [h1]; intro hh; cases hh), if_pos h1, parse_imm_success h1 h2]

theorem add_success (t0 td ta tb : Token) (rest ds : List Token) (dv : Int)
    (a : Operand) (ia : Bool) (b : Operand) (ib : Bool)
    (h0 : t0.type = TokType.TOK_ADD) (hd : regTok td dv) (ha : opTok ta a ia)
    (hb : opTok tb b ib)
    (hterm : (rest.headD eofTok).type = TokType.TOK_NL ∨
      (rest.headD eofTok).type = TokType.TOK_EOF) :
    parse_cmd ⟨t0 :: td :: ta :: tb :: rest, false, ds⟩ =
      (some ⟨.CMD_ADD, .reg dv, a, b, ia, false, ib, false, .BRANCH_NONE⟩,
       (advance ⟨rest, false, ds⟩).2) := by
  have hne : t0.type ≠ TokType.TOK_EOF := by
    rw [h0]
    intro hh
    cases hh
  unfold parse_cmd
  rw [skip_nls_id (show (cur ⟨t0 :: td :: ta :: tb :: rest, false, ds⟩).type ≠
    TokType.TOK_NL by simp only [cur_cons]; rw [h0]; intro hh; cases hh)]
  unfold parse_cmd_core
  rw [if_neg (by simp)]
  simp only [cur_cons]
  rw [if_neg (by rw [h0]; intro hh; cases hh)]
  rw [h0]
  dsimp only
  unfold parse_cmd_add
  dsimp only
  rw [advance_cons hne]
  dsimp only
  unfold regTok at hd
  rw [parse_variable_operand_success hd.1 hd.2.1 hd.2.2]
  dsimp only
  rw [parse_var_or_imm_opTok ha]
  dsimp only
  rw [parse_var_or_imm_opTok hb]
  dsimp only
  rw [if_pos (show (cur ⟨rest, false, ds⟩).type = TokType.TOK_NL ∨
    (cur ⟨rest, false, ds⟩).type = TokType.TOK_EOF from hterm)]
  rfl

theorem sub_success (t0 td ta tb : Token) (rest ds : List Token) (dv : Int)
    (a : Operand) (ia : Bool) (b : Operand) (ib : Bool)
    (h0 : t0.type = TokType.TOK_SUB) (hd : regTok td dv) (ha : opTok ta a ia)
    (hb : opTok tb b ib)
    (hterm : (rest.headD eofTok).type = TokType.TOK_NL ∨
      (rest.headD eofTok).type = TokType.TOK_EOF) :
    parse_cmd ⟨t0 :: td :: ta :: tb :: rest, false, ds⟩ =
      (some ⟨.CMD_SUB, .reg dv, a, b, ia, false, ib, false, .BRANCH_NONE⟩,
       (advance ⟨rest, false, ds⟩).2) := by
  have hne : t0.type ≠ TokType.TOK_EOF := by
    rw [h0]
    intro hh
    cases hh
  unfold parse_cmd
  rw [skip_nls_id (show (cur ⟨t0 :: td :: ta :: tb :: rest, false, ds⟩).type ≠
    TokType.TOK_NL by simp only [cur_cons]; rw [h0]; intro hh; cases hh)]
  unfold parse_cmd_core
  rw [if_neg (by simp)]
  simp only [cur_cons]
  rw [if_neg (by rw [h0]; intro hh; cases hh)]
  rw [h0]
  dsimp only
  unfold parse_cmd_sub
  dsimp only
  rw [advance_cons hne]
  dsimp only
  unfold regTok at hd
  rw [parse_variable_operand_success hd.1 hd.2.1 hd.2.2]
  dsimp only
  rw [parse_var_or_imm_opTok ha]
  dsimp only
  rw [parse_var_or_imm_opTok hb]
  dsimp only
  rw [if_pos (show (cur ⟨rest, false, ds⟩).type = TokType.TOK_NL ∨
    (cur ⟨rest, false, ds⟩).type = TokType.TOK_EOF from hterm)]
  rfl

theorem mov_success (t0 td ta : Token) (rest ds : List Token) (dv : Int)
    (a : Operand) (ia : Bool)
    (h0 : t0.type = TokType.TOK_MOV) (hd : regTok td dv) (ha : opTok ta a ia)
    (hterm : (rest.headD eofTok).type = TokType.TOK_NL ∨
      (rest.headD eofTok).type = TokType.TOK_EOF) :
    parse_cmd ⟨t0 :: td :: ta :: rest, false, ds⟩ =
      (some ⟨.CMD_MOV, .reg dv, a, .num 0, ia, false, false, false, .BRANCH_NONE⟩,
       (advance ⟨rest, false, ds⟩).2) := by
  have hne : t0.type ≠ TokType.TOK_EOF := by
    rw [h0]
    intro hh
    cases hh
  unfold parse_cmd
  rw [skip_nls_id (show (cur ⟨t0 :: td :: ta :: rest, false, ds⟩).type ≠
    TokType.TOK_NL by simp only [cur_cons]; rw [h0]; intro hh; cases hh)]
  unfold parse_cmd_core
  rw [if_neg (by simp)]
  simp only [cur_cons]
  rw [if_neg (by rw [h0]; intro hh; cases hh)]
  rw [h0]
  dsimp only
  unfold parse_cmd_mov
  dsimp only
  rw [advance_cons hne]
  dsimp only
  unfold regTok at hd
  rw [parse_variable_operand_success hd.1 hd.2.1 hd.2.2]
  dsimp only
  rw [parse_var_or_imm_opTok ha]
  dsimp only
  rw [if_pos (show (cur ⟨rest, false, ds⟩).type = TokType.TOK_NL ∨
    (cur ⟨rest, false, ds⟩).type = TokType.TOK_EOF from hterm)]
  rfl

theorem cmp_success (t0 ta tb : Token) (rest ds : List Token)
    (a : Operand) (ia : Bool) (b : Operand) (ib : Bool)
    (h0 : t0.type = TokType.TOK_CMP) (ha : opTok ta a ia) (hb : opTok tb b ib)
    (hterm : (rest.headD eofTok).type = TokType.TOK_NL ∨
      (rest.headD eofTok).type = TokType.TOK_EOF) :
    parse_cmd ⟨t0 :: ta :: tb :: rest, false, ds⟩ =
      (some ⟨.CMD_CMP, .num 0, a, b, ia, false, ib, false, .BRANCH_NONE⟩,
       (advance ⟨rest, false, ds⟩).2) := by
  have hne : t0.type ≠ TokType.TOK_EOF := by
    rw [h0]
    intro hh
    cases hh
  unfold parse_cmd
  rw [skip_nls_id (show (cur ⟨t0 :: ta :: tb :: rest, false, ds⟩).type ≠
    TokType.TOK_NL by simp only [cur_cons]; rw [h0]; intro hh; cases hh)]
  unfold parse_cmd_core
  rw [if_neg (by simp)]
  simp only [cur_cons]
  rw [if_neg (by rw [h0]; intro hh; cases hh)]
  rw [h0]
  dsimp only
  unfold parse_cmd_cmp
  dsimp only
  rw [advance_cons hne]
  dsimp only
  rw [parse_var_or_imm_opTok ha]
  dsimp only
  rw [parse_var_or_imm_opTok hb]
  dsimp only
  rw [if_pos (show (cur ⟨rest, false, ds⟩).type = TokType.TOK_NL ∨
    (cur ⟨rest, false, ds⟩).type = TokType.TOK_EOF from hterm)]
  rfl

theorem cmp_u_success (t0 ta tb : Token) (rest ds : List Token)
    (a : Operand) (ia : Bool) (b : Operand) (ib : Bool)
    (h0 : t0.type = TokType.TOK_CMP_U) (ha : opTok ta a ia) (hb : opTok tb b ib)
    (hterm : (rest.headD eofTok).type = TokType.TOK_NL ∨
      (rest.headD eofTok).type = TokType.TOK_EOF) :
    parse_cmd ⟨t0 :: ta :: tb :: rest, false, ds⟩ =
      (some ⟨.CMD_CMP_U, .num 0, a, b, ia, false, ib, false, .BRANCH_NONE⟩,
       (advance ⟨rest, false, ds⟩).2) := by
  have hne : t0.type ≠ TokType.TOK_EOF := by
    rw [h0]
    intro hh
    cases hh
  unfold parse_cmd
  rw [skip_nls_id (show (cur ⟨t0 :: ta :: tb :: rest, false, ds⟩).type ≠
    TokType.TOK_NL by simp only [cur_cons]; rw [h0]; intro hh; cases hh)]
  unfold parse_cmd_core
  rw [if_neg (by simp)]
  simp only [cur_cons]
  rw [if_neg (by rw [h0]; intro hh; cases hh)]
  rw [h0]
  dsimp only
  unfold parse_cmd_cmp_u
  dsimp only
  rw [advance_cons hne]
  dsimp only
  rw [parse_var_or_imm_opTok ha]
  dsimp only
  rw [parse_var_or_imm_opTok hb]
  dsimp only
  rw [if_pos (show (cur ⟨rest, false, ds⟩).type = TokType.TOK_NL ∨
    (cur ⟨rest, false, ds⟩).type = TokType.TOK_EOF from hterm)]
  rfl

theorem print_success (t0 tbase tv : Token) (rest ds : List Token)
    (b : Operand) (ib : Bool)
    (h0 : t0.type = TokType.TOK_PRINT) (hbase : is_base tbase = true)
    (hbne : tbase.type ≠ TokType.TOK_EOF) (hv : opTok tv b ib)
    (hterm : (rest.headD eofTok).type = TokType.TOK_NL ∨
      (rest.headD eofTok).type = TokType.TOK_EOF) :
    parse_cmd ⟨t0 :: tbase :: tv :: rest, false, ds⟩ =
      (some ⟨.CMD_PRINT, .num 0, .str (strdup_tok tbase), b, false, false, ib,
         false, .BRANCH_NONE⟩,
       (advance ⟨rest, false, ds⟩).2) := by
  have hne : t0.type ≠ TokType.TOK_EOF := by
    rw [h0]
    intro hh
    cases hh
  unfold parse_cmd
  rw [skip_nls_id (show (cur ⟨t0 :: tbase :: tv :: rest, false, ds⟩).type ≠
    TokType.TOK_NL by simp only [cur_cons]; rw [h0]; intro hh; cases hh)]
  unfold parse_cmd_core
  rw [if_neg (by simp)]
  simp only [cur_cons]
  rw [if_neg (by rw [h0]; intro hh; cases hh)]
  rw [h0]
  dsimp only
  unfold parse_cmd_print
  dsimp only
  rw [advance_cons hne]
  dsimp only
  simp only [cur_cons]
  rw [if_pos hbase]
  rw [advance_cons hbne]
  dsimp only
  rw [parse_var_or_imm_opTok hv]
  dsimp only
  rw [if_pos (show (cur ⟨rest, false, ds⟩).type = TokType.TOK_NL ∨
    (cur ⟨rest, false, ds⟩).type = TokType.TOK_EOF from hterm)]
  rfl

/-! ### Numeric-literal and register-token characterizations -/

theorem accumDigits_eq (base : Nat) (dig : Char → Option Nat) (cs : List Char)
    (acc : Nat) :
    accumDigits base dig cs acc =
      (if cs.all (fun ch => (dig ch).isSome) then
        some (cs.foldl (fun a c => (a * base + (dig c).getD 0) % (2 ^ 64)) acc)
      else none) := by
  induction cs generalizing acc with
  | nil => simp [accumDigits]
  | cons c cs ih =>
    cases hd : dig c with
    | some d =>
      simp only [accumDigits, hd]
      rw [ih]
      simp [hd]
    | none =>
      simp only [accumDigits, hd]
      simp [hd]

theorem parse_imm_val_eq_spec (text : List Char) :
    parse_imm_val text = specNumericVal text := by
  cases text with
  | nil => decide
  | cons c0 tl =>
    cases tl with
    | nil =>
      simp only [parse_imm_val, specNumericVal]
      rw [accumDigits_eq]
      rfl
    | cons c1 rest =>
      simp only [parse_imm_val, specNumericVal]
      by_cases h0 : c0 = '0'
      · rw [if_pos h0, if_pos h0]
        by_cases hx : c1 = 'x' ∨ c1 = 'X'
        · rw [if_pos hx, if_pos hx, accumDigits_eq]
          rfl
        · rw [if_neg hx, if_neg hx]
          by_cases hb : c1 = 'b' ∨ c1 = 'B'
          · rw [if_pos hb, if_pos hb, accumDigits_eq]
            rfl
          · rw [if_neg hb, if_neg hb]
      · rw [if_neg h0, if_neg h0, accumDigits_eq]
        rfl

theorem is_variable_length {t : Token} (h : is_variable t = true) :
    2 ≤ t.text.length := by
  unfold is_variable at h
  cases htext : t.text with
  | nil =>
    rw [htext] at h
    cases h
  | cons c tl =>
    cases tl with
    | nil =>
      rw [htext] at h
      cases h
    | cons c2 tl2 =>
      simp only [List.length_cons]
      omega

theorem parse_variable_strtol {t : Token} {v : Int} (hvar : is_variable t = true)
    (hs : strtol10 (t.text.drop 1 ++ t.after) = (v, t.text.length - 1))
    (h0 : 0 ≤ v) (h31 : v ≤ 31) : parse_variable t = some v := by
  have hlen := is_variable_length hvar
  unfold parse_variable
  dsimp only
  rw [hs]
  dsimp only
  rw [if_pos ⟨by omega, h0, h31⟩]

theorem parse_imm_prefix_only (p : Parser) (h1 : (cur p).type = TokType.TOK_NUM)
    (h2 : (cur p).text = ['0', 'x'] ∨ (cur p).text = ['0', 'b']) :
    parse_imm p = (some (.num 0), (advance p).2) := by
  unfold parse_imm
  rw [if_pos h1]
  rcases h2 with h2 | h2
  · rw [h2]
    have hval : parse_imm_val ['0', 'x'] = some 0 := by decide
    rw [hval]
  · rw [h2]
    have hval : parse_imm_val ['0', 'b'] = some 0 := by decide
    rw [hval]

theorem parse_var_or_imm_other (p : Parser)
    (h1 : (cur p).type ≠ TokType.TOK_IDENT) (h2 : (cur p).type ≠ TokType.TOK_NUM) :
    parse_var_or_imm p = (none, (advance p).2) := by
  unfold parse_var_or_imm
  rw [if_neg h1, if_neg h2]

/-! ### The claims -/

/-- C1, the claim as frozen, is false: on the input `"add x1\nmov x3 x1\n"`
the first instruction is malformed (missing operand), the missing-operand
failure lands on the newline, which `parse_var_or_imm` consumes, so the
diagnostic references `mov` on line 2 and recovery then discards the whole
second line: the well-formed `mov x3 x1` — which parses fine on its own —
contributes no command, contradicting "the instruction on the next line is
parsed unaffected". -/
theorem claim1_counterexample :
    (parseProgram "add x1\nmov x3 x1\n").1 = [] ∧
    (parseProgram "add x1\nmov x3 x1\n").2.diags.map (fun t => (t.text, t.line)) =
      [(['m', 'o', 'v'], 2)] ∧
    (parseProgram "mov x3 x1\n").1 =
      [⟨.CMD_MOV, .reg 3, .reg 1, .num 0, false, false, false, false,
        .BRANCH_NONE⟩] := by
  refine ⟨?_, ?_, ?_⟩
  · decide
  · decide
  · decide

/-- C1 (corrected): every malformed instruction yields no command and exactly
one diagnostic — a `parse_cmd` step started with the error flag clear grows
the diagnostic list by one exactly when it leaves the error flag set, and a
returned command comes with no error and no diagnostic; the next line is
unaffected *except* when the failure itself consumed the line's newline
(missing operand at end of line), in which case recovery skips the following
line as well.  The frozen scenario behaves as claimed: `"add x1 x2 3\nbogus\n
mov x3 x1\n"` yields exactly ADD then MOV and one diagnostic referencing
`bogus` at line 2. -/
theorem claim1_amended :
    ((parseProgram "add x1 x2 3\nbogus\nmov x3 x1\n").1 =
      [⟨.CMD_ADD, .reg 1, .reg 2, .num 3, false, false, true, false, .BRANCH_NONE⟩,
       ⟨.CMD_MOV, .reg 3, .reg 1, .num 0, false, false, false, false, .BRANCH_NONE⟩] ∧
     (parseProgram "add x1 x2 3\nbogus\nmov x3 x1\n").2.diags.map
       (fun t => (t.text, t.line)) = [(['b', 'o', 'g', 'u', 's'], 2)]) ∧
    (∀ p : Parser, p.had_error = false →
      (parse_cmd p).2.diags.length = p.diags.length + (parse_cmd p).2.had_error.toNat ∧
      (∀ c, (parse_cmd p).1 = some c →
        (parse_cmd p).2.had_error = false ∧ (parse_cmd p).2.diags = p.diags)) := by
  refine ⟨⟨by decide, by decide⟩, ?_⟩
  intro p he
  refine ⟨(parse_cmd_diag p he).1, ?_⟩
  intro c hc
  exact ⟨((parse_cmd_diag p he).2 c hc).2.1, ((parse_cmd_diag p he).2 c hc).2.2⟩

/-- Witness for C1: the general diagnostic accounting applied to the concrete
one-line program `"bogus\n"`, whose parse fails with one diagnostic. -/
theorem claim1_witness :
    (parser_init (lex "bogus\n".toList)).had_error = false ∧
    (parse_cmd (parser_init (lex "bogus\n".toList))).2.diags.length =
      (parser_init (lex "bogus\n".toList)).diags.length +
        (parse_cmd (parser_init (lex "bogus\n".toList))).2.had_error.toNat :=
  ⟨rfl, (claim1_amended.2 (parser_init (lex "bogus\n".toList)) rfl).1⟩

/-- C2 (code_bug): on `"print x 0xFF\n"` the PRINT command's operand A does
*not* hold the one-character base signifier `"x"`: `strdup(lexeme)` copies
from the token start to the NUL terminating the source buffer, so the owned
string is the whole remaining source text `"x 0xFF\n"`.  Operand B does hold
immediate 255 with its flag set, as claimed. -/
theorem claim2_strdup_overrun :
    (parseProgram "print x 0xFF\n").1 =
      [⟨.CMD_PRINT, .num 0, .str "x 0xFF\n".toList, .num 255, false, false,
        true, false, .BRANCH_NONE⟩] ∧
    "x 0xFF\n".toList ≠ ['x'] := by
  exact ⟨by decide, by decide⟩

/-- C3, the claim as frozen, is false: on a state whose current token is a
newline (neither identifier nor numeric kind), `parse_var_or_imm` reports
failure but *advances past* the offending token — the parser's position
changes, so the diagnostic produced afterwards references the next token. -/
theorem claim3_counterexample :
    parse_var_or_imm
        ⟨[⟨.TOK_NL, ['\n'], [], 1, 7⟩, ⟨.TOK_EOF, [], [], 2, 1⟩], false, []⟩ =
      (none, ⟨[⟨.TOK_EOF, [], [], 2, 1⟩], false, []⟩) ∧
    (⟨[⟨.TOK_EOF, [], [], 2, 1⟩], false, []⟩ : Parser) ≠
      ⟨[⟨.TOK_NL, ['\n'], [], 1, 7⟩, ⟨.TOK_EOF, [], [], 2, 1⟩], false, []⟩ := by
  exact ⟨by decide, by decide⟩

/-- C3 (corrected): whenever `parse_var_or_imm` encounters a token of
neither the identifier kind nor the numeric kind it reports failure and
*consumes* the offending token (`advance(parser); // Skip invalid token`),
so the diagnostic for the failed instruction references the token after
it. -/
theorem claim3_amended (p : Parser) (h1 : (cur p).type ≠ TokType.TOK_IDENT)
    (h2 : (cur p).type ≠ TokType.TOK_NUM) :
    parse_var_or_imm p = (none, (advance p).2) :=
  parse_var_or_imm_other p h1 h2

/-- Witness for C3: the amended statement applied at a state whose current
token is a newline. -/
theorem claim3_witness :
    ((cur ⟨[⟨.TOK_NL, ['\n'], [], 1, 7⟩, ⟨.TOK_EOF, [], [], 2, 1⟩], false,
        []⟩).type ≠ TokType.TOK_IDENT) ∧
    parse_var_or_imm
        ⟨[⟨.TOK_NL, ['\n'], [], 1, 7⟩, ⟨.TOK_EOF, [], [], 2, 1⟩], false, []⟩ =
      (none,
       (advance ⟨[⟨.TOK_NL, ['\n'], [], 1, 7⟩, ⟨.TOK_EOF, [], [], 2, 1⟩],
         false, []⟩).2) :=
  ⟨by decide,
   claim3_amended ⟨[⟨.TOK_NL, ['\n'], [], 1, 7⟩, ⟨.TOK_EOF, [], [], 2, 1⟩],
     false, []⟩ (by decide) (by decide)⟩

/-- C4, the claim as frozen, is false: the token `09` consists solely of
decimal digits, and the decimal accumulation loop would accept it with value
9, yet `parse_imm` rejects it — a multi-character token beginning with `0`
whose second character is not a base letter falls into the bare
`return false` branch. -/
theorem claim4_counterexample :
    "09".toList.all Char.isDigit = true ∧
    parse_imm_val "09".toList = none ∧
    accumDigits 10 decDigit? "09".toList 0 = some 9 := by
  exact ⟨by decide, by decide, by decide⟩

/-- C4 (corrected): immediate parsing succeeds exactly on `0x`/`0X` followed
by hex digits (possibly none), `0b`/`0B` followed by binary digits (possibly
none), and all-decimal-digit tokens that are a single character or do not
start with `0`; a multi-character decimal token starting with `0` (such as
`09`) is rejected.  The frozen round-trips hold: `0x1F` → 31, `0b101` → 5,
`42` → 42; `0x1G` and `10x` are rejected. -/
theorem claim4_amended :
    (∀ text : List Char, parse_imm_val text = specNumericVal text) ∧
    parse_imm_val "0x1F".toList = some 31 ∧
    parse_imm_val "0b101".toList = some 5 ∧
    parse_imm_val "42".toList = some 42 ∧
    parse_imm_val "0x1G".toList = none ∧
    parse_imm_val "10x".toList = none ∧
    parse_imm_val "09".toList = none :=
  ⟨parse_imm_val_eq_spec, by decide, by decide, by decide, by decide, by decide,
   by decide⟩

/-- C5 (confirmed): for every well-formed single instruction of each kind,
`parse_cmd` yields exactly one command of the matching kind, its documented
operand slots populated from the source tokens, each `is_immediate` flag set
exactly when the corresponding operand was a numeric literal, string flags
clear, and the branch condition unset. -/
theorem claim5_wellformed_instructions :
    (∀ (t0 td ta tb : Token) (rest ds : List Token) (dv : Int) (a : Operand)
        (ia : Bool) (b : Operand) (ib : Bool),
      t0.type = TokType.TOK_ADD → regTok td dv → opTok ta a ia → opTok tb b ib →
      ((rest.headD eofTok).type = TokType.TOK_NL ∨
        (rest.headD eofTok).type = TokType.TOK_EOF) →
      parse_cmd ⟨t0 :: td :: ta :: tb :: rest, false, ds⟩ =
        (some ⟨.CMD_ADD, .reg dv, a, b, ia, false, ib, false, .BRANCH_NONE⟩,
         (advance ⟨rest, false, ds⟩).2)) ∧
    (∀ (t0 td ta tb : Token) (rest ds : List Token) (dv : Int) (a : Operand)
        (ia : Bool) (b : Operand) (ib : Bool),
      t0.type = TokType.TOK_SUB → regTok td dv → opTok ta a ia → opTok tb b ib →
      ((rest.headD eofTok).type = TokType.TOK_NL ∨
        (rest.headD eofTok).type = TokType.TOK_EOF) →
      parse_cmd ⟨t0 :: td :: ta :: tb :: rest, false, ds⟩ =
        (some ⟨.CMD_SUB, .reg dv, a, b, ia, false, ib, false, .BRANCH_NONE⟩,
         (advance ⟨rest, false, ds⟩).2)) ∧
    (∀ (t0 td ta : Token) (rest ds : List Token) (dv : Int) (a : Operand)
        (ia : Bool),
      t0.type = TokType.TOK_MOV → regTok td dv → opTok ta a ia →
      ((rest.headD eofTok).type = TokType.TOK_NL ∨
        (rest.headD eofTok).type = TokType.TOK_EOF) →
      parse_cmd ⟨t0 :: td :: ta :: rest, false, ds⟩ =
        (some ⟨.CMD_MOV, .reg dv, a, .num 0, ia, false, false, false,
           .BRANCH_NONE⟩,
         (advance ⟨rest, false, ds⟩).2)) ∧
    (∀ (t0 ta tb : Token) (rest ds : List Token) (a : Operand) (ia : Bool)
        (b : Operand) (ib : Bool),
      t0.type = TokType.TOK_CMP → opTok ta a ia → opTok tb b ib →
      ((rest.headD eofTok).type = TokType.TOK_NL ∨
        (rest.headD eofTok).type = TokType.TOK_EOF) →
      parse_cmd ⟨t0 :: ta :: tb :: rest, false, ds⟩ =
        (some ⟨.CMD_CMP, .num 0, a, b, ia, false, ib, false, .BRANCH_NONE⟩,
         (advance ⟨rest, false, ds⟩).2)) ∧
    (∀ (t0 ta tb : Token) (rest ds : List Token) (a : Operand) (ia : Bool)
        (b : Operand) (ib : Bool),
      t0.type = TokType.TOK_CMP_U → opTok ta a ia → opTok tb b ib →
      ((rest.headD eofTok).type = TokType.TOK_NL ∨
        (rest.headD eofTok).type = TokType.TOK_EOF) →
      parse_cmd ⟨t0 :: ta :: tb :: rest, false, ds⟩ =
        (some ⟨.CMD_CMP_U, .num 0, a, b, ia, false, ib, false, .BRANCH_NONE⟩,
         (advance ⟨rest, false, ds⟩).2)) ∧
    (∀ (t0 tbase tv : Token) (rest ds : List Token) (b : Operand) (ib : Bool),
      t0.type = TokType.TOK_PRINT → is_base tbase = true →
      tbase.type ≠ TokType.TOK_EOF → opTok tv b ib →
      ((rest.headD eofTok).type = TokType.TOK_NL ∨
        (rest.headD eofTok).type = TokType.TOK_EOF) →
      parse_cmd ⟨t0 :: tbase :: tv :: rest, false, ds⟩ =
        (some ⟨.CMD_PRINT, .num 0, .str (strdup_tok tbase), b, false, false,
           ib, false, .BRANCH_NONE⟩,
         (advance ⟨rest, false, ds⟩).2)) :=
  ⟨add_success, sub_success, mov_success, cmp_success, cmp_u_success,
   print_success⟩

/-- Witness for C5: the ADD production on the tokens of `add x1 x2 5` —
destination register 1, operand A register 2 (not immediate), operand B
immediate 5. -/
theorem claim5_witness :
    (regTok ⟨.TOK_IDENT, ['x', '1'], [], 1, 5⟩ 1 ∧
     opTok ⟨.TOK_IDENT, ['x', '2'], [], 1, 8⟩ (.reg 2) false ∧
     opTok ⟨.TOK_NUM, ['5'], [], 1, 11⟩ (.num 5) true) ∧
    parse_cmd
        ⟨[⟨.TOK_ADD, ['a', 'd', 'd'], [], 1, 1⟩,
          ⟨.TOK_IDENT, ['x', '1'], [], 1, 5⟩,
          ⟨.TOK_IDENT, ['x', '2'], [], 1, 8⟩,
          ⟨.TOK_NUM, ['5'], [], 1, 11⟩,
          ⟨.TOK_NL, ['\n'], [], 1, 12⟩,
          ⟨.TOK_EOF, [], [], 2, 1⟩], false, []⟩ =
      (some ⟨.CMD_ADD, .reg 1, .reg 2, .num 5, false, false, true, false,
         .BRANCH_NONE⟩,
       (advance ⟨[⟨.TOK_NL, ['\n'], [], 1, 12⟩, ⟨.TOK_EOF, [], [], 2, 1⟩],
         false, []⟩).2) := by
  refine ⟨⟨by decide, Or.inl ⟨rfl, 2, rfl, by decide⟩,
    Or.inr ⟨rfl, 5, rfl, rfl, by decide⟩⟩, ?_⟩
  exact claim5_wellformed_instructions.1 _ _ _ _ _ _ _ _ _ _ _ rfl (by decide)
    (Or.inl ⟨rfl, 2, rfl, by decide⟩) (Or.inr ⟨rfl, 5, rfl, rfl, by decide⟩)
    (Or.inl rfl)

/-- C6, the claim as frozen, is false in its "exactly when" direction: the
identifier token `x+5` is accepted as a register operand with index 5 — the
remainder `+5` is parsed by `strtol`, which admits a leading sign — although
`+5` is not a string of decimal digits, so the token is not of the form
"x followed by characters that parse in full as a non-negative base-10
integer". -/
theorem claim6_counterexample :
    parse_var_or_imm
        ⟨[⟨.TOK_IDENT, ['x', '+', '5'], [], 1, 1⟩, ⟨.TOK_EOF, [], [], 1, 4⟩],
          false, []⟩ =
      (some ((.reg 5, false)), ⟨[⟨.TOK_EOF, [], [], 1, 4⟩], false, []⟩) ∧
    ¬ specRegisterAccept ⟨.TOK_IDENT, ['x', '+', '5'], [], 1, 1⟩ := by
  exact ⟨by decide, by decide⟩

/-- C6 (corrected): an identifier token is accepted as a register operand
exactly when `strtol` parses the remainder after the leading `x` in full to
a value in [0, 31] — which also admits a leading `+` sign, e.g. `x+5` is
accepted as index 5; `x0`..`x31` are accepted, `x32` and `x-1` rejected;
and every register index stored in any operand of any command returned by
`parse_commands` lies in [0, 31]. -/
theorem claim6_amended :
    (∀ (t : Token) (v : Int), parse_variable t = some v → 0 ≤ v ∧ v ≤ 31) ∧
    (∀ n : Nat, n < 32 →
      parse_variable ⟨.TOK_IDENT, 'x' :: decRepr2 n, [], 1, 1⟩ = some n) ∧
    (parse_variable ⟨.TOK_IDENT, ['x', '3', '2'], [], 1, 1⟩ = none ∧
     parse_variable ⟨.TOK_IDENT, ['x', '-', '1'], [], 1, 1⟩ = none ∧
     parse_variable ⟨.TOK_IDENT, ['x', '+', '5'], [], 1, 1⟩ = some 5) ∧
    (∀ (p : Parser) (c : Command), c ∈ (parse_commands p).1 →
      operandRegOk c.destination ∧ operandRegOk c.val_a ∧ operandRegOk c.val_b) := by
  refine ⟨fun t v h => parse_variable_range h, by decide, ⟨by decide, by decide,
    by decide⟩, ?_⟩
  intro p c hc
  exact ⟨(parse_commands_mem hc).2.2.1, (parse_commands_mem hc).2.2.2.1,
    (parse_commands_mem hc).2.2.2.2⟩

/-- Witness for C6: the range bound applied to the accepted token `x5`, the
x0..x31 acceptance applied at n = 7, and the stored-index invariant applied
to the MOV command returned for the program `"mov x3 x1\n"`. -/
theorem claim6_witness :
    (parse_variable ⟨.TOK_IDENT, ['x', '5'], [], 1, 1⟩ = some 5 ∧
      (0 ≤ (5 : Int) ∧ (5 : Int) ≤ 31)) ∧
    parse_variable ⟨.TOK_IDENT, 'x' :: decRepr2 7, [], 1, 1⟩ = some 7 ∧
    (⟨.CMD_MOV, .reg 3, .reg 1, .num 0, false, false, false, false,
        .BRANCH_NONE⟩ : Command) ∈
      (parse_commands (parser_init (lex "mov x3 x1\n".toList))).1 ∧
    operandRegOk (Operand.reg 3) :=
  ⟨⟨by decide, claim6_amended.1 ⟨.TOK_IDENT, ['x', '5'], [], 1, 1⟩ 5 (by decide)⟩,
   claim6_amended.2.1 7 (by decide),
   by decide,
   (claim6_amended.2.2.2 (parser_init (lex "mov x3 x1\n".toList))
     ⟨.CMD_MOV, .reg 3, .reg 1, .num 0, false, false, false, false,
       .BRANCH_NONE⟩ (by decide)).1⟩

/-- C7 (confirmed): `parse_commands` is a total function of the finite token
stream (its recursion is bounded by the stream length) and always runs to
end-of-input: the final state's current token is the sentinel for every
start state.  `advance` at the sentinel returns it without moving, and
end-of-input terminates an instruction exactly like a newline: the
newline-less program `mov x3 x1` parses to its MOV command and the final
state still holds the sentinel. -/
theorem claim7_termination :
    (∀ p : Parser, is_at_end p → advance p = (cur p, p)) ∧
    (∀ p : Parser, is_at_end (parse_commands p).2) ∧
    (parseProgram "mov x3 x1").1 =
      [⟨.CMD_MOV, .reg 3, .reg 1, .num 0, false, false, false, false,
        .BRANCH_NONE⟩] ∧
    (parseProgram "mov x3 x1").2.toks.map (fun t => t.type) =
      [TokType.TOK_EOF] :=
  ⟨fun _ h => advance_at_end h, parse_commands_at_end, by decide, by decide⟩

/-- Witness for C7: `advance` applied at the concrete exhausted state. -/
theorem claim7_witness :
    is_at_end (⟨[⟨.TOK_EOF, [], [], 1, 1⟩], false, []⟩ : Parser) ∧
    advance ⟨[⟨.TOK_EOF, [], [], 1, 1⟩], false, []⟩ =
      (cur ⟨[⟨.TOK_EOF, [], [], 1, 1⟩], false, []⟩,
       ⟨[⟨.TOK_EOF, [], [], 1, 1⟩], false, []⟩) :=
  ⟨by decide,
   claim7_termination.1 ⟨[⟨.TOK_EOF, [], [], 1, 1⟩], false, []⟩ (by decide)⟩

/-- C8 (confirmed): every command returned by `parse_commands` has both
string flags false — `create_command` clears them and no production ever
sets them; in particular the PRINT command parsed from `"print x 0xFF\n"`
stores an owned string in operand A's value slot while `is_a_string` stays
false. -/
theorem claim8_string_flags :
    (∀ (p : Parser) (c : Command), c ∈ (parse_commands p).1 →
      c.is_a_string = false ∧ c.is_b_string = false) ∧
    (parseProgram "print x 0xFF\n").1.map (fun c => (c.val_a, c.is_a_string)) =
      [((.str "x 0xFF\n".toList), false)] := by
  refine ⟨?_, by decide⟩
  intro p c hc
  exact ⟨(parse_commands_mem hc).1, (parse_commands_mem hc).2.1⟩

/-- Witness for C8: the string-flag invariant applied to the PRINT command
returned for `"print x 0xFF\n"`. -/
theorem claim8_witness :
    (⟨.CMD_PRINT, .num 0, .str "x 0xFF\n".toList, .num 255, false, false,
        true, false, .BRANCH_NONE⟩ : Command) ∈
      (parse_commands (parser_init (lex "print x 0xFF\n".toList))).1 ∧
    ((⟨.CMD_PRINT, .num 0, .str "x 0xFF\n".toList, .num 255, false, false,
        true, false, .BRANCH_NONE⟩ : Command).is_a_string = false ∧
     (⟨.CMD_PRINT, .num 0, .str "x 0xFF\n".toList, .num 255, false, false,
        true, false, .BRANCH_NONE⟩ : Command).is_b_string = false) :=
  ⟨by decide,
   claim8_string_flags.1 (parser_init (lex "print x 0xFF\n".toList))
     ⟨.CMD_PRINT, .num 0, .str "x 0xFF\n".toList, .num 255, false, false,
       true, false, .BRANCH_NONE⟩ (by decide)⟩

/-- C9 (confirmed): when the current numeric token's text is exactly `0x` or
`0b` — a base prefix with no digits after it — the digit loop of `parse_imm`
runs zero times, so the token is accepted with immediate value 0 and
consumed. -/
theorem claim9_bare_prefix (p : Parser) (h1 : (cur p).type = TokType.TOK_NUM)
    (h2 : (cur p).text = ['0', 'x'] ∨ (cur p).text = ['0', 'b']) :
    parse_imm p = (some (.num 0), (advance p).2) :=
  parse_imm_prefix_only p h1 h2

/-- Witness for C9: the bare-prefix acceptance at a state whose current
token is the numeric token `0x`. -/
theorem claim9_witness :
    ((cur ⟨[⟨.TOK_NUM, ['0', 'x'], [], 1, 1⟩, ⟨.TOK_EOF, [], [], 1, 3⟩],
        false, []⟩).type = TokType.TOK_NUM) ∧
    parse_imm ⟨[⟨.TOK_NUM, ['0', 'x'], [], 1, 1⟩, ⟨.TOK_EOF, [], [], 1, 3⟩],
        false, []⟩ =
      (some (.num 0),
       (advance ⟨[⟨.TOK_NUM, ['0', 'x'], [], 1, 1⟩, ⟨.TOK_EOF, [], [], 1, 3⟩],
         false, []⟩).2) :=
  ⟨by decide,
   claim9_bare_prefix ⟨[⟨.TOK_NUM, ['0', 'x'], [], 1, 1⟩,
     ⟨.TOK_EOF, [], [], 1, 3⟩], false, []⟩ (by decide) (Or.inl (by decide))⟩

/-- C10 (confirmed): `parse_variable` accepts an identifier token whose
remainder after the leading `x` is any decimal form accepted by `strtol`
that spans the rest of the token (its value being in the register range),
including forms with a leading plus sign: the token `x+5` is accepted as
register index 5, also through `parse_var_or_imm`. -/
theorem claim10_strtol_form :
    (∀ (t : Token) (v : Int), is_variable t = true →
      strtol10 (t.text.drop 1 ++ t.after) = (v, t.text.length - 1) →
      0 ≤ v → v ≤ 31 → parse_variable t = some v) ∧
    parse_variable ⟨.TOK_IDENT, ['x', '+', '5'], [], 1, 1⟩ = some 5 ∧
    parse_var_or_imm
        ⟨[⟨.TOK_IDENT, ['x', '+', '5'], [], 1, 1⟩, ⟨.TOK_EOF, [], [], 1, 4⟩],
          false, []⟩ =
      (some ((.reg 5, false)), ⟨[⟨.TOK_EOF, [], [], 1, 4⟩], false, []⟩) :=
  ⟨fun _ _ h1 h2 h3 h4 => parse_variable_strtol h1 h2 h3 h4, by decide,
   by decide⟩

/-- Witness for C10: the strtol-form acceptance applied to the concrete
token `x+5`. -/
theorem claim10_witness :
    (is_variable ⟨.TOK_IDENT, ['x', '+', '5'], [], 1, 1⟩ = true ∧
     strtol10 ((⟨.TOK_IDENT, ['x', '+', '5'], [], 1, 1⟩ : Token).text.drop 1 ++
       (⟨.TOK_IDENT, ['x', '+', '5'], [], 1, 1⟩ : Token).after) =
       (5, (⟨.TOK_IDENT, ['x', '+', '5'], [], 1, 1⟩ : Token).text.length - 1)) ∧
    parse_variable ⟨.TOK_IDENT, ['x', '+', '5'], [], 1, 1⟩ = some 5 :=
  ⟨⟨by decide, by decide⟩,
   claim10_strtol_form.1 ⟨.TOK_IDENT, ['x', '+', '5'], [], 1, 1⟩ 5 (by decide)
     (by decide) (by decide) (by decide)⟩

end Ci
